import Mathlib

/-!
Shallow embedding of `source/emulator/src/Kernel/Memory.cpp` (Kyty emulator,
namespace `Kyty::Libs::LibKernel::Memory`).

Modelling conventions:
* `uint64_t` / `size_t` values are `Nat`; every addition that the C code
  performs on 64-bit machine integers is reduced `% 2^64` (written `U64`).
* `int` (the raw guest protection code) is `Int`.
* The two managers' `Vector<AllocatedBlock>` states are Lean `List`s;
  `Vector::Add` appends at the end, `Vector::RemoveAt` removes in place,
  exactly as the loops in the source traverse front to back.
* Functions that the C code writes through out-pointers and a `bool` result
  are modelled as `Option` of the tuple of written values plus the new state;
  `none` corresponds to `return false` (in which case the C code has not
  mutated the state).  Kernel entry points that can hit `EXIT` /
  `EXIT_NOT_IMPLEMENTED` (a fatal abort, not an error return) are `Option`
  valued, `none` being the fatal abort.
* Calls to the external host-reservation collaborator
  (`VirtualMemory::Alloc` / `AllocAligned`) are replaced by an oracle
  parameter carrying the address the collaborator returned; the side calls
  (`VirtualMemory::Free`, `Graphics::GraphicsRunWait`,
  `Graphics::GpuMemoryFree`, `Graphics::GpuMemorySetAllocatedRange`) are
  recorded in an event trace so their presence and order can be stated.
* The numeric values of the `KERNEL_ERROR_*` codes come from a header that
  is not part of this repository; the claims only use their distinctness,
  so they are modelled as an inductive type.
-/

namespace Kyty

/-- `2^64`, the modulus of `uint64_t` arithmetic. -/
def U64 : Nat := 2 ^ 64

/-- `Loader::VirtualMemory::Mode`: the host access modes used by this file
(spec section 2: no-access, read, read-write, execute, execute-read,
execute-read-write). -/
inductive Mode where
  | NoAccess
  | Read
  | ReadWrite
  | Execute
  | ExecuteRead
  | ExecuteReadWrite
  deriving DecidableEq

/-- `Graphics::GpuMemoryMode`: GPU visibility of a mapping; this file only
ever uses `NoAccess` and `ReadWrite`. -/
inductive GpuMemoryMode where
  | NoAccess
  | ReadWrite
  deriving DecidableEq

/-- Return status of the kernel entry points (`OK` and the `KERNEL_ERROR_*`
codes used in Memory.cpp).  Only their distinctness matters. -/
inductive Status where
  | OK
  | EINVAL
  | EAGAIN
  | ENOMEM
  | EBUSY
  | EACCES
  deriving DecidableEq

/-- Calls made to the external collaborators (host virtual-memory
reservation and GPU memory tracker), recorded in order. -/
inductive Event where
  | VirtualMemoryFree (addr : Nat)
  | GraphicsRunWait
  | GpuMemoryFree (addr len : Nat)
  | GpuMemorySetAllocatedRange (addr len : Nat)
  deriving DecidableEq

/-- `static uint64_t get_aligned_pos(uint64_t pos, size_t align)`:
`return (align != 0 ? (pos + (align - 1)) & ~(align - 1) : pos);`
The 64-bit addition wraps; `~` is complement within 64 bits. -/
def get_aligned_pos (pos align : Nat) : Nat :=
  if align ≠ 0 then
    ((pos + (align - 1)) % U64) &&& ((U64 - 1) ^^^ (align - 1))
  else pos

namespace PhysicalMemory

/-- `PhysicalMemory::AllocatedBlock`. -/
structure AllocatedBlock where
  start_addr : Nat
  size : Nat
  map_vaddr : Nat
  map_size : Nat
  prot : Int
  mode : Mode
  gpu_mode : GpuMemoryMode
  deriving DecidableEq

/-- `b.start_addr + b.size` as computed on `uint64_t`. -/
def blockEnd (b : AllocatedBlock) : Nat :=
  (b.start_addr + b.size) % U64

/-- The loop in `PhysicalMemory::Alloc` that computes `free_pos`: the
maximum of `start_addr + size` over all blocks, starting from 0. -/
def maxEnd : List AllocatedBlock → Nat
  | [] => 0
  | b :: bs => max (blockEnd b) (maxEnd bs)

/-- The fresh block built in `PhysicalMemory::Alloc` on success. -/
def freshBlock (free_pos len : Nat) : AllocatedBlock :=
  { start_addr := free_pos, size := len, map_vaddr := 0, map_size := 0,
    prot := 0, mode := Mode.NoAccess, gpu_mode := GpuMemoryMode.NoAccess }

/-- `PhysicalMemory::Alloc(search_start, search_end, len, alignment,
phys_addr_out)`: bump allocation at the aligned maximum end of the current
blocks.  The returned pair is (value written to `*phys_addr_out`, new block
list); `none` is `return false` (no state change).  The
`phys_addr_out == nullptr` guard of the C code is represented by the result
being returned as a value. -/
def Alloc (s : List AllocatedBlock) (search_start search_end len alignment : Nat) :
    Option (Nat × List AllocatedBlock) :=
  let free_pos := get_aligned_pos (maxEnd s) alignment
  if free_pos ≥ search_start ∧ (free_pos + len) % U64 ≤ search_end then
    some (free_pos, s ++ [freshBlock free_pos len])
  else
    none

/-- `PhysicalMemory::Release(start, len, vaddr, size, gpu_mode)`: removes
the first block exactly matching `(start, len)` and returns its last
mapping state `(map_vaddr, map_size, gpu_mode)`. -/
def Release (s : List AllocatedBlock) (start len : Nat) :
    Option ((Nat × Nat × GpuMemoryMode) × List AllocatedBlock) :=
  match s with
  | [] => none
  | b :: bs =>
    if start = b.start_addr ∧ len = b.size then
      some ((b.map_vaddr, b.map_size, b.gpu_mode), bs)
    else
      match Release bs start len with
      | some (info, bs') => some (info, b :: bs')
      | none => none

/-- `PhysicalMemory::Map(vaddr, phys_addr, len, prot, mode, gpu_mode)`:
finds the first block whose physical range contains `phys_addr`; fails if
it already has a mapping, else stores the mapping fields. -/
def Map (s : List AllocatedBlock) (vaddr phys_addr len : Nat) (prot : Int)
    (mode : Mode) (gpu_mode : GpuMemoryMode) : Option (List AllocatedBlock) :=
  match s with
  | [] => none
  | b :: bs =>
    if phys_addr ≥ b.start_addr ∧ phys_addr < blockEnd b then
      if b.map_vaddr ≠ 0 ∨ b.map_size ≠ 0 then
        none
      else
        some ({ b with map_vaddr := vaddr, map_size := len, prot := prot,
                       mode := mode, gpu_mode := gpu_mode } :: bs)
    else
      (Map bs vaddr phys_addr len prot mode gpu_mode).map (fun bs' => b :: bs')

/-- `PhysicalMemory::Unmap(vaddr, size, gpu_mode)`: finds the first block
whose mapping is exactly `(vaddr, size)`, returns its `gpu_mode` and clears
the mapping fields (the block itself persists). -/
def Unmap (s : List AllocatedBlock) (vaddr size : Nat) :
    Option (GpuMemoryMode × List AllocatedBlock) :=
  match s with
  | [] => none
  | b :: bs =>
    if b.map_vaddr = vaddr ∧ b.map_size = size then
      some (b.gpu_mode,
        { b with gpu_mode := GpuMemoryMode.NoAccess, map_size := 0,
                 map_vaddr := 0, prot := 0, mode := Mode.NoAccess } :: bs)
    else
      (Unmap bs vaddr size).map (fun r => (r.1, b :: r.2))

end PhysicalMemory

/-- The attributes written out by `Find` (both managers): base address,
length, raw protection, decoded mode, GPU mode. -/
structure FindResult where
  base_addr : Nat
  len : Nat
  prot : Int
  mode : Mode
  gpu_mode : GpuMemoryMode
  deriving DecidableEq

namespace PhysicalMemory

/-- The containment test of `PhysicalMemory::Find`:
`vaddr >= b.map_vaddr && vaddr < b.map_vaddr + b.map_size` (64-bit sum). -/
def matchesFind (vaddr : Nat) (b : AllocatedBlock) : Bool :=
  decide (vaddr ≥ b.map_vaddr) && decide (vaddr < (b.map_vaddr + b.map_size) % U64)

/-- `PhysicalMemory::Find(vaddr, ...)`: linear scan (`std::any_of`, front to
back) for the first block whose mapping range contains `vaddr`; writes out
that mapping's attributes. -/
def Find (s : List AllocatedBlock) (vaddr : Nat) : Option FindResult :=
  (s.find? (matchesFind vaddr)).map
    (fun b => ⟨b.map_vaddr, b.map_size, b.prot, b.mode, b.gpu_mode⟩)

/-- The exact-match test of `PhysicalMemory::Release`:
`start == b.start_addr && len == b.size`. -/
def matchesRelease (start len : Nat) (b : AllocatedBlock) : Bool :=
  decide (start = b.start_addr) && decide (len = b.size)

/-- The exact-match test of `PhysicalMemory::Unmap`:
`b.map_vaddr == vaddr && b.map_size == size`. -/
def matchesUnmap (vaddr size : Nat) (b : AllocatedBlock) : Bool :=
  decide (b.map_vaddr = vaddr) && decide (b.map_size = size)

/-- The field assignment performed by `PhysicalMemory::Unmap` on the
matching block. -/
def clearBlock (b : AllocatedBlock) : AllocatedBlock :=
  { b with gpu_mode := GpuMemoryMode.NoAccess, map_size := 0, map_vaddr := 0,
           prot := 0, mode := Mode.NoAccess }

/-- The field assignment performed by `PhysicalMemory::Map` on the
matching block. -/
def mapBlock (b : AllocatedBlock) (vaddr len : Nat) (prot : Int) (mode : Mode)
    (gpu_mode : GpuMemoryMode) : AllocatedBlock :=
  { b with map_vaddr := vaddr, map_size := len, prot := prot, mode := mode,
           gpu_mode := gpu_mode }

end PhysicalMemory

namespace FlexibleMemory

/-- `FlexibleMemory::AllocatedBlock`. -/
structure AllocatedBlock where
  map_vaddr : Nat
  map_size : Nat
  prot : Int
  mode : Mode
  gpu_mode : GpuMemoryMode
  deriving DecidableEq

/-- `FlexibleMemory::Map(vaddr, len, prot, mode, gpu_mode)`: unconditionally
appends a new mapping and returns `true`. -/
def Map (s : List AllocatedBlock) (vaddr len : Nat) (prot : Int) (mode : Mode)
    (gpu_mode : GpuMemoryMode) : Bool × List AllocatedBlock :=
  (true, s ++ [{ map_vaddr := vaddr, map_size := len, prot := prot,
                 mode := mode, gpu_mode := gpu_mode }])

/-- `FlexibleMemory::Unmap(vaddr, size, gpu_mode)`: removes the first
mapping exactly matching `(vaddr, size)` and returns its `gpu_mode`. -/
def Unmap (s : List AllocatedBlock) (vaddr size : Nat) :
    Option (GpuMemoryMode × List AllocatedBlock) :=
  match s with
  | [] => none
  | b :: bs =>
    if b.map_vaddr = vaddr ∧ b.map_size = size then
      some (b.gpu_mode, bs)
    else
      (Unmap bs vaddr size).map (fun r => (r.1, b :: r.2))

/-- The containment test of `FlexibleMemory::Find`. -/
def matchesFind (vaddr : Nat) (b : AllocatedBlock) : Bool :=
  decide (vaddr ≥ b.map_vaddr) && decide (vaddr < (b.map_vaddr + b.map_size) % U64)

/-- `FlexibleMemory::Find(vaddr, ...)`: same contract as the physical
manager's `Find`, scanning the flexible mappings. -/
def Find (s : List AllocatedBlock) (vaddr : Nat) : Option FindResult :=
  (s.find? (matchesFind vaddr)).map
    (fun b => ⟨b.map_vaddr, b.map_size, b.prot, b.mode, b.gpu_mode⟩)

/-- The exact-match test of `FlexibleMemory::Unmap`:
`b.map_vaddr == vaddr && b.map_size == size`. -/
def matchesUnmap (vaddr size : Nat) (b : AllocatedBlock) : Bool :=
  decide (b.map_vaddr = vaddr) && decide (b.map_size = size)

end FlexibleMemory

/-- The `switch (prot)` of `KernelMapNamedFlexibleMemory` (codes 0-7 only;
`gpu_mode` stays `NoAccess`).  `none` is the `default: EXIT(...)` fatal
branch. -/
def decodeProtFlexible (prot : Int) : Option (Mode × GpuMemoryMode) :=
  if prot = 0 then some (Mode.NoAccess, GpuMemoryMode.NoAccess)
  else if prot = 1 then some (Mode.Read, GpuMemoryMode.NoAccess)
  else if prot = 2 ∨ prot = 3 then some (Mode.ReadWrite, GpuMemoryMode.NoAccess)
  else if prot = 4 then some (Mode.Execute, GpuMemoryMode.NoAccess)
  else if prot = 5 then some (Mode.ExecuteRead, GpuMemoryMode.NoAccess)
  else if prot = 6 ∨ prot = 7 then some (Mode.ExecuteReadWrite, GpuMemoryMode.NoAccess)
  else none

/-- The `switch (prot)` of `KernelMapDirectMemory` (codes 0-7 plus the
GPU-visible codes 0x32/0x33).  `none` is the `default: EXIT(...)` fatal
branch. -/
def decodeProtDirect (prot : Int) : Option (Mode × GpuMemoryMode) :=
  if prot = 0 then some (Mode.NoAccess, GpuMemoryMode.NoAccess)
  else if prot = 1 then some (Mode.Read, GpuMemoryMode.NoAccess)
  else if prot = 2 ∨ prot = 3 then some (Mode.ReadWrite, GpuMemoryMode.NoAccess)
  else if prot = 4 then some (Mode.Execute, GpuMemoryMode.NoAccess)
  else if prot = 5 then some (Mode.ExecuteRead, GpuMemoryMode.NoAccess)
  else if prot = 6 ∨ prot = 7 then some (Mode.ExecuteReadWrite, GpuMemoryMode.NoAccess)
  else if prot = 0x32 ∨ prot = 0x33 then some (Mode.ReadWrite, GpuMemoryMode.ReadWrite)
  else none

/-- `static_cast<int64_t>` of a `uint64_t` value (two's complement). -/
def int64_of_uint64 (n : Nat) : Int :=
  if n < 2 ^ 63 then (n : Int) else (n : Int) - (U64 : Int)

/-- `KernelMapNamedFlexibleMemory(addr_in_out, len, prot, flags, name)`.
`host_out_addr` is the oracle value returned by the collaborator call
`VirtualMemory::Alloc(in_addr, len, mode)`.  Result: `none` for the fatal
paths (`flags != 0`, unknown `prot`), otherwise the status, the new
flexible-manager state, and the address written back through
`addr_in_out`. -/
def KernelMapNamedFlexibleMemory (flex : List FlexibleMemory.AllocatedBlock)
    (len : Nat) (prot : Int) (flags : Int) (host_out_addr : Nat) :
    Option (Status × List FlexibleMemory.AllocatedBlock × Nat) :=
  if flags ≠ 0 then none
  else
    match decodeProtFlexible prot with
    | none => none
    | some (mode, gpu_mode) =>
      let out_addr := host_out_addr
      let mapped := FlexibleMemory.Map flex out_addr len prot mode gpu_mode
      if mapped.1 = false then
        some (Status.ENOMEM, flex, out_addr)
      else if out_addr = 0 then
        some (Status.ENOMEM, mapped.2, out_addr)
      else
        some (Status.OK, mapped.2, out_addr)

/-- `KernelMunmap(vaddr, len)`.  Result: `none` for the fatal path (neither
manager has an exact `(vaddr, len)` mapping), otherwise the status, both
managers' new states, and the trace of collaborator calls.  The `vaddr < 0`
test of the C code is vacuous on `uint64_t`. -/
def KernelMunmap (phys : List PhysicalMemory.AllocatedBlock)
    (flex : List FlexibleMemory.AllocatedBlock) (vaddr len : Nat) :
    Option (Status × List PhysicalMemory.AllocatedBlock ×
            List FlexibleMemory.AllocatedBlock × List Event) :=
  if vaddr < 0 ∨ len = 0 then
    some (Status.EINVAL, phys, flex, [])
  else
    let finish := fun (gpu_mode : GpuMemoryMode) =>
      (if vaddr ≠ 0 ∨ len ≠ 0 then [Event.VirtualMemoryFree vaddr] else []) ++
      (if gpu_mode ≠ GpuMemoryMode.NoAccess then
        [Event.GraphicsRunWait, Event.GpuMemoryFree vaddr len] else [])
    match PhysicalMemory.Unmap phys vaddr len with
    | some (gpu_mode, phys') => some (Status.OK, phys', flex, finish gpu_mode)
    | none =>
      match FlexibleMemory.Unmap flex vaddr len with
      | some (gpu_mode, flex') => some (Status.OK, phys, flex', finish gpu_mode)
      | none => none

/-- `KernelAllocateDirectMemory(search_start, search_end, len, alignment,
memory_type, phys_addr_out)`.  `search_start`, `search_end` are `int64_t`;
`phys_addr_out_null` tells whether the caller passed a null out pointer.
Returns the status, the new physical-manager state and the `int64_t` value
written to `*phys_addr_out` (if any).  `memory_type` is accepted but
unused. -/
def KernelAllocateDirectMemory (phys : List PhysicalMemory.AllocatedBlock)
    (search_start search_end : Int) (len alignment : Nat)
    (_memory_type : Int) (phys_addr_out_null : Bool) :
    Status × List PhysicalMemory.AllocatedBlock × Option Int :=
  if search_start < 0 ∨ search_end ≤ search_start ∨ len = 0 ∨ phys_addr_out_null then
    (Status.EINVAL, phys, none)
  else
    match PhysicalMemory.Alloc phys search_start.toNat search_end.toNat len alignment with
    | none => (Status.EAGAIN, phys, none)
    | some (addr, phys') => (Status.OK, phys', some (int64_of_uint64 addr))

/-- `KernelMapDirectMemory(addr, len, prot, flags, direct_memory_start,
alignment)`.  `host_out_addr` is the oracle value returned by
`VirtualMemory::AllocAligned(in_addr, len, mode, alignment)`.  Result:
`none` for the fatal paths (`flags != 0`, unknown `prot`), otherwise the
status, the new physical-manager state, the address written back through
`addr`, and the collaborator-call trace. -/
def KernelMapDirectMemory (phys : List PhysicalMemory.AllocatedBlock)
    (len : Nat) (prot : Int) (flags : Int) (direct_memory_start : Nat)
    (host_out_addr : Nat) :
    Option (Status × List PhysicalMemory.AllocatedBlock × Nat × List Event) :=
  if flags ≠ 0 then none
  else
    match decodeProtDirect prot with
    | none => none
    | some (mode, gpu_mode) =>
      let out_addr := host_out_addr
      if out_addr = 0 then
        some (Status.ENOMEM, phys, out_addr, [])
      else
        match PhysicalMemory.Map phys out_addr direct_memory_start len prot mode gpu_mode with
        | none => some (Status.EBUSY, phys, out_addr, [Event.VirtualMemoryFree out_addr])
        | some phys' =>
          some (Status.OK, phys', out_addr,
            if gpu_mode ≠ GpuMemoryMode.NoAccess then
              [Event.GpuMemorySetAllocatedRange out_addr len] else [])

/-- `KernelQueryMemoryProtection(addr, start, end, prot)`.  `none` is the
fatal `EXIT_NOT_IMPLEMENTED(addr == nullptr)` path (a null pointer is
address 0).  Otherwise the status and, when found, the values available for
the out pointers: `(base, base + len - 1, prot)`. -/
def KernelQueryMemoryProtection (phys : List PhysicalMemory.AllocatedBlock)
    (flex : List FlexibleMemory.AllocatedBlock) (addr : Nat) :
    Option (Status × Option (Nat × Nat × Int)) :=
  if addr = 0 then none
  else
    match PhysicalMemory.Find phys addr with
    | some r => some (Status.OK, some (r.base_addr, (r.base_addr + r.len - 1) % U64, r.prot))
    | none =>
      match FlexibleMemory.Find flex addr with
      | some r => some (Status.OK, some (r.base_addr, (r.base_addr + r.len - 1) % U64, r.prot))
      | none => some (Status.EACCES, none)

/-- The per-block invariant of claim C1: a block with no mapping
(`map_vaddr = 0` and `map_size = 0`) has `mode = NoAccess` and
`gpu_mode = NoAccess`. -/
def BlockInv (b : PhysicalMemory.AllocatedBlock) : Prop :=
  b.map_vaddr = 0 ∧ b.map_size = 0 → b.mode = Mode.NoAccess ∧ b.gpu_mode = GpuMemoryMode.NoAccess

/-- The invariant over a whole physical-manager state. -/
def StateInv (s : List PhysicalMemory.AllocatedBlock) : Prop :=
  ∀ b ∈ s, BlockInv b

instance decBlockInv (b : PhysicalMemory.AllocatedBlock) : Decidable (BlockInv b) :=
  if h : b.map_vaddr = 0 ∧ b.map_size = 0 then
    if hc : b.mode = Mode.NoAccess ∧ b.gpu_mode = GpuMemoryMode.NoAccess then
      isTrue (fun _ => hc)
    else isFalse (fun hi => hc (hi h))
  else isTrue (fun hi => absurd hi h)

instance decStateInv (s : List PhysicalMemory.AllocatedBlock) : Decidable (StateInv s) :=
  List.decidableBAll _ s

/-! ### Arithmetic helper lemmas -/

theorem or_le_add : ∀ a b : Nat, a ||| b ≤ a + b := by
  intro a
  induction a using Nat.strong_induction_on with
  | _ a ih =>
    intro b
    rcases Nat.eq_zero_or_pos a with ha | ha
    · subst ha; simp
    · have hlt : a / 2 < a := Nat.div_lt_self ha (by norm_num)
      have hrec := ih (a / 2) hlt (b / 2)
      have key : a ||| b = 2 * (a / 2 ||| b / 2) + (a ||| b) % 2 := by
        conv_lhs => rw [← Nat.div_add_mod (a ||| b) 2]
        rw [Nat.or_div_two]
      have hm : (a ||| b) % 2 ≤ a % 2 + b % 2 := by
        rcases Nat.mod_two_eq_zero_or_one (a ||| b) with h | h
        · omega
        · rcases Nat.or_mod_two_eq_one.mp h with h1 | h1 <;> omega
      omega

theorem land_compl_partition (y m : Nat) (hy : y < U64) :
    (y &&& ((U64 - 1) ^^^ m)) ||| (y &&& m) = y := by
  apply Nat.eq_of_testBit_eq
  intro i
  by_cases hi : i < 64
  · have h64 : Nat.testBit (U64 - 1) i = true := by
      rw [show U64 - 1 = 2 ^ 64 - 1 from rfl, Nat.testBit_two_pow_sub_one]
      exact decide_eq_true hi
    simp only [Nat.testBit_or, Nat.testBit_and, Nat.testBit_xor, h64]
    cases hy1 : y.testBit i <;> cases hm1 : m.testBit i <;> simp
  · have hyi : y.testBit i = false := by
      refine Nat.testBit_lt_two_pow (lt_of_lt_of_le hy ?_)
      exact Nat.pow_le_pow_right (by norm_num) (le_of_not_lt hi)
    simp [Nat.testBit_or, Nat.testBit_and, hyi]

/-- Aligning never moves the position down, as long as `pos + align` does
not overflow 64 bits. -/
theorem get_aligned_pos_ge (pos align : Nat) (h : pos + align ≤ U64) :
    pos ≤ get_aligned_pos pos align := by
  unfold get_aligned_pos
  by_cases ha : align = 0
  · simp [ha]
  · have ha1 : 1 ≤ align := Nat.one_le_iff_ne_zero.mpr ha
    simp only [ha, ne_eq, not_false_eq_true, if_true]
    have hy : pos + (align - 1) < U64 := by
      have : 0 < U64 := by norm_num [U64]
      omega
    rw [Nat.mod_eq_of_lt hy]
    have hpart := land_compl_partition (pos + (align - 1)) (align - 1) hy
    have h1 := or_le_add ((pos + (align - 1)) &&& ((U64 - 1) ^^^ (align - 1)))
      ((pos + (align - 1)) &&& (align - 1))
    rw [hpart] at h1
    have h2 : (pos + (align - 1)) &&& (align - 1) ≤ align - 1 := Nat.and_le_right
    omega

theorem get_aligned_pos_zero (pos : Nat) : get_aligned_pos pos 0 = pos := by
  simp [get_aligned_pos]

theorem get_aligned_pos_one (pos : Nat) (h : pos < U64) : get_aligned_pos pos 1 = pos := by
  have : (U64 : Nat) = 2 ^ 64 := rfl
  simp only [get_aligned_pos, ne_eq, one_ne_zero, not_false_eq_true, if_true,
    Nat.sub_self, Nat.add_zero, Nat.xor_zero, this]
  rw [Nat.mod_eq_of_lt (this ▸ h), Nat.and_pow_two_sub_one_eq_mod,
    Nat.mod_eq_of_lt (this ▸ h)]

/-! ### Lemmas about `maxEnd` -/

namespace PhysicalMemory

theorem blockEnd_lt (b : AllocatedBlock) : blockEnd b < U64 := by
  have : 0 < U64 := by norm_num [U64]
  exact Nat.mod_lt _ this

theorem maxEnd_lt (s : List AllocatedBlock) : maxEnd s < U64 := by
  induction s with
  | nil => norm_num [maxEnd, U64]
  | cons b bs ih =>
    simp only [maxEnd, max_lt_iff]
    exact ⟨blockEnd_lt b, ih⟩

theorem blockEnd_le_maxEnd {b : AllocatedBlock} {s : List AllocatedBlock}
    (h : b ∈ s) : blockEnd b ≤ maxEnd s := by
  induction s with
  | nil => cases h
  | cons c cs ih =>
    rcases List.mem_cons.mp h with rfl | h'
    · exact le_max_left _ _
    · exact le_trans (ih h') (le_max_right _ _)

theorem maxEnd_append (s t : List AllocatedBlock) :
    maxEnd (s ++ t) = max (maxEnd s) (maxEnd t) := by
  induction s with
  | nil => simp [maxEnd]
  | cons b bs ih => simp [maxEnd, ih, max_assoc]

theorem maxEnd_le_of_sublist {s t : List AllocatedBlock} (h : List.Sublist s t) :
    maxEnd s ≤ maxEnd t := by
  induction h with
  | slnil => exact le_refl _
  | cons b _ ih => exact le_trans ih (le_max_right _ _)
  | cons₂ b _ ih => exact max_le_max (le_refl _) ih

/-! ### Characterization of `Alloc` -/

theorem Alloc_eq_some_iff {s : List AllocatedBlock} {ss se len al a : Nat}
    {s' : List AllocatedBlock} :
    Alloc s ss se len al = some (a, s') ↔
      a = get_aligned_pos (maxEnd s) al ∧ ss ≤ a ∧ (a + len) % U64 ≤ se ∧
      s' = s ++ [freshBlock a len] := by
  by_cases h : get_aligned_pos (maxEnd s) al ≥ ss ∧
      (get_aligned_pos (maxEnd s) al + len) % U64 ≤ se
  · simp only [Alloc, if_pos h, Option.some.injEq, Prod.mk.injEq]
    constructor
    · rintro ⟨rfl, rfl⟩
      exact ⟨rfl, h.1, h.2, rfl⟩
    · rintro ⟨rfl, -, -, rfl⟩
      exact ⟨rfl, rfl⟩
  · simp only [Alloc, if_neg h]
    constructor
    · intro hc
      cases hc
    · rintro ⟨rfl, h1, h2, -⟩
      exact absurd ⟨h1, h2⟩ h

theorem Alloc_isSome_iff {s : List AllocatedBlock} {ss se len al : Nat} :
    (Alloc s ss se len al).isSome ↔
      ss ≤ get_aligned_pos (maxEnd s) al ∧
      (get_aligned_pos (maxEnd s) al + len) % U64 ≤ se := by
  by_cases h : get_aligned_pos (maxEnd s) al ≥ ss ∧
      (get_aligned_pos (maxEnd s) al + len) % U64 ≤ se
  · simp only [Alloc, if_pos h]
    simp [h]
  · simp only [Alloc, if_neg h]
    simp [h]

theorem Alloc_eq_none_iff {s : List AllocatedBlock} {ss se len al : Nat} :
    Alloc s ss se len al = none ↔
      ¬ (ss ≤ get_aligned_pos (maxEnd s) al ∧
         (get_aligned_pos (maxEnd s) al + len) % U64 ≤ se) := by
  by_cases h : get_aligned_pos (maxEnd s) al ≥ ss ∧
      (get_aligned_pos (maxEnd s) al + len) % U64 ≤ se
  · simp only [Alloc, if_pos h]
    simp [h]
  · simp only [Alloc, if_neg h]
    simp [h]

end PhysicalMemory

/-- `List.find?` returns the unique element satisfying the predicate. -/
theorem find_eq_some_of_unique {α : Type} {p : α → Bool} {l : List α} {b : α}
    (hb : b ∈ l) (hpb : p b = true) (huniq : ∀ x ∈ l, p x = true → x = b) :
    l.find? p = some b := by
  induction l with
  | nil => cases hb
  | cons c cs ih =>
    by_cases hc : p c = true
    · rw [List.find?_cons_of_pos _ hc]
      rw [huniq c (List.mem_cons_self _ _) hc]
    · rw [List.find?_cons_of_neg _ hc]
      rcases List.mem_cons.mp hb with rfl | hb'
      · exact absurd hpb hc
      · exact ih hb' (fun x hx hpx => huniq x (List.mem_cons_of_mem _ hx) hpx)

/-! ### Characterization of `Release`, `Map`, `Unmap`, `Find` -/

namespace PhysicalMemory

theorem Release_eq_find (s : List AllocatedBlock) (start len : Nat) :
    Release s start len =
      (s.find? (matchesRelease start len)).map
        (fun b => ((b.map_vaddr, b.map_size, b.gpu_mode),
                   s.eraseP (matchesRelease start len))) := by
  induction s with
  | nil => rfl
  | cons b bs ih =>
    by_cases h : start = b.start_addr ∧ len = b.size
    · have hb : matchesRelease start len b = true := by
        simp [matchesRelease, h.1, h.2]
      simp [Release, if_pos h, List.find?_cons_of_pos _ hb, List.eraseP_cons_of_pos hb]
    · have hb : ¬ matchesRelease start len b = true := by
        simp only [matchesRelease, Bool.and_eq_true, decide_eq_true_eq]
        exact h
      rw [Release, if_neg h, ih, List.find?_cons_of_neg _ hb, List.eraseP_cons_of_neg hb]
      cases hf : bs.find? (matchesRelease start len) <;> simp

theorem Release_isSome_iff {s : List AllocatedBlock} {start len : Nat} :
    (Release s start len).isSome ↔
      ∃ b ∈ s, start = b.start_addr ∧ len = b.size := by
  rw [Release_eq_find, Option.isSome_map']
  simp [List.find?_isSome, matchesRelease]

theorem Release_eq_none_of_no_match {s : List AllocatedBlock} {start len : Nat}
    (h : ∀ b ∈ s, ¬ (start = b.start_addr ∧ len = b.size)) :
    Release s start len = none := by
  rw [Release_eq_find]
  have : s.find? (matchesRelease start len) = none := by
    rw [List.find?_eq_none]
    intro b hb
    simp only [matchesRelease, Bool.and_eq_true, decide_eq_true_eq]
    exact h b hb
  rw [this]
  rfl

theorem Release_first_match (s₁ s₂ : List AllocatedBlock) (b : AllocatedBlock)
    (start len : Nat) (hb : start = b.start_addr ∧ len = b.size)
    (hearlier : ∀ c ∈ s₁, ¬ (start = c.start_addr ∧ len = c.size)) :
    Release (s₁ ++ b :: s₂) start len =
      some ((b.map_vaddr, b.map_size, b.gpu_mode), s₁ ++ s₂) := by
  induction s₁ with
  | nil => simp [Release, if_pos hb]
  | cons c cs ih =>
    have hc : ¬ (start = c.start_addr ∧ len = c.size) :=
      hearlier c (List.mem_cons_self _ _)
    have ih' := ih (fun d hd => hearlier d (List.mem_cons_of_mem _ hd))
    simp only [List.cons_append, Release, if_neg hc, List.append_eq, ih']

theorem Unmap_eq_none_iff {s : List AllocatedBlock} {vaddr size : Nat} :
    Unmap s vaddr size = none ↔
      ∀ b ∈ s, ¬ (b.map_vaddr = vaddr ∧ b.map_size = size) := by
  induction s with
  | nil => simp [Unmap]
  | cons b bs ih =>
    by_cases h : b.map_vaddr = vaddr ∧ b.map_size = size
    · simp only [Unmap, if_pos h]
      constructor
      · intro hc
        cases hc
      · intro hall
        exact absurd h (hall b (List.mem_cons_self _ _))
    · simp only [Unmap, if_neg h, Option.map_eq_none', ih]
      constructor
      · intro hall c hc
        rcases List.mem_cons.mp hc with rfl | hc'
        · exact h
        · exact hall c hc'
      · intro hall c hc
        exact hall c (List.mem_cons_of_mem _ hc)

theorem Unmap_isSome_iff {s : List AllocatedBlock} {vaddr size : Nat} :
    (Unmap s vaddr size).isSome ↔
      ∃ b ∈ s, b.map_vaddr = vaddr ∧ b.map_size = size := by
  rw [Option.isSome_iff_ne_none, Ne, Unmap_eq_none_iff]
  push_neg
  rfl

theorem Unmap_first_match (s₁ s₂ : List AllocatedBlock) (b : AllocatedBlock)
    (vaddr size : Nat) (hb : b.map_vaddr = vaddr ∧ b.map_size = size)
    (hearlier : ∀ c ∈ s₁, ¬ (c.map_vaddr = vaddr ∧ c.map_size = size)) :
    Unmap (s₁ ++ b :: s₂) vaddr size =
      some (b.gpu_mode, s₁ ++ clearBlock b :: s₂) := by
  induction s₁ with
  | nil => simp [Unmap, if_pos hb, clearBlock]
  | cons c cs ih =>
    have hc : ¬ (c.map_vaddr = vaddr ∧ c.map_size = size) :=
      hearlier c (List.mem_cons_self _ _)
    have ih' := ih (fun d hd => hearlier d (List.mem_cons_of_mem _ hd))
    simp only [List.cons_append, Unmap, if_neg hc, List.append_eq, ih', Option.map_some']

theorem Map_fails_of_first_mapped (s₁ s₂ : List AllocatedBlock)
    (b : AllocatedBlock) (vaddr phys len : Nat) (prot : Int) (mode : Mode)
    (gpu : GpuMemoryMode)
    (hmapped : b.map_vaddr ≠ 0 ∨ b.map_size ≠ 0)
    (hcont : phys ≥ b.start_addr ∧ phys < blockEnd b)
    (hearlier : ∀ c ∈ s₁, ¬ (phys ≥ c.start_addr ∧ phys < blockEnd c)) :
    Map (s₁ ++ b :: s₂) vaddr phys len prot mode gpu = none := by
  induction s₁ with
  | nil => simp [Map, if_pos hcont, if_pos hmapped]
  | cons c cs ih =>
    have hc : ¬ (phys ≥ c.start_addr ∧ phys < blockEnd c) :=
      hearlier c (List.mem_cons_self _ _)
    have ih' := ih (fun d hd => hearlier d (List.mem_cons_of_mem _ hd))
    simp only [List.cons_append, Map, if_neg hc, List.append_eq, ih', Option.map_none']

theorem Map_eq_some_elim {s s' : List AllocatedBlock} {vaddr phys len : Nat}
    {prot : Int} {mode : Mode} {gpu : GpuMemoryMode}
    (h : Map s vaddr phys len prot mode gpu = some s') :
    ∃ s₁ b s₂, s = s₁ ++ b :: s₂ ∧
      (∀ c ∈ s₁, ¬ (phys ≥ c.start_addr ∧ phys < blockEnd c)) ∧
      (phys ≥ b.start_addr ∧ phys < blockEnd b) ∧
      b.map_vaddr = 0 ∧ b.map_size = 0 ∧
      s' = s₁ ++ mapBlock b vaddr len prot mode gpu :: s₂ := by
  induction s generalizing s' with
  | nil => cases h
  | cons c cs ih =>
    by_cases hc : phys ≥ c.start_addr ∧ phys < blockEnd c
    · by_cases hm : c.map_vaddr ≠ 0 ∨ c.map_size ≠ 0
      · rw [Map, if_pos hc, if_pos hm] at h
        cases h
      · rw [Map, if_pos hc, if_neg hm] at h
        push_neg at hm
        refine ⟨[], c, cs, rfl, by simp, hc, hm.1, hm.2, ?_⟩
        simpa [mapBlock] using (Option.some.injEq _ _ ▸ h).symm
    · rw [Map, if_neg hc] at h
      rcases Option.map_eq_some'.mp h with ⟨t, ht, rfl⟩
      obtain ⟨s₁, b, s₂, rfl, hearl, hcontb, hv, hsz, rfl⟩ := ih ht
      exact ⟨c :: s₁, b, s₂, rfl,
        fun d hd => by
          rcases List.mem_cons.mp hd with rfl | hd'
          · exact hc
          · exact hearl d hd',
        hcontb, hv, hsz, rfl⟩

theorem Map_first_unmapped (s₁ s₂ : List AllocatedBlock) (b : AllocatedBlock)
    (vaddr phys len : Nat) (prot : Int) (mode : Mode) (gpu : GpuMemoryMode)
    (hunmapped : b.map_vaddr = 0 ∧ b.map_size = 0)
    (hcont : phys ≥ b.start_addr ∧ phys < blockEnd b)
    (hearlier : ∀ c ∈ s₁, ¬ (phys ≥ c.start_addr ∧ phys < blockEnd c)) :
    Map (s₁ ++ b :: s₂) vaddr phys len prot mode gpu =
      some (s₁ ++ mapBlock b vaddr len prot mode gpu :: s₂) := by
  have hm : ¬ (b.map_vaddr ≠ 0 ∨ b.map_size ≠ 0) := by
    push_neg
    exact hunmapped
  induction s₁ with
  | nil => simp [Map, if_pos hcont, if_neg hm, mapBlock]
  | cons c cs ih =>
    have hc : ¬ (phys ≥ c.start_addr ∧ phys < blockEnd c) :=
      hearlier c (List.mem_cons_self _ _)
    have ih' := ih (fun d hd => hearlier d (List.mem_cons_of_mem _ hd))
    simp only [List.cons_append, Map, if_neg hc, List.append_eq, ih', Option.map_some']

theorem matchesFind_false_of_unmapped {b : AllocatedBlock} (hv : b.map_vaddr = 0)
    (hs : b.map_size = 0) (q : Nat) : matchesFind q b = false := by
  simp [matchesFind, hv, hs, Nat.zero_mod]

theorem Find_middle_congr (s₁ s₂ : List AllocatedBlock) (b b' : AllocatedBlock)
    (q : Nat) (hb : matchesFind q b = false) (hb' : matchesFind q b' = false) :
    Find (s₁ ++ b :: s₂) q = Find (s₁ ++ b' :: s₂) q := by
  unfold Find
  rw [List.find?_append, List.find?_append,
    List.find?_cons_of_neg _ (by simp [hb]),
    List.find?_cons_of_neg _ (by simp [hb'])]

theorem Find_drop_unmapped (s₁ s₂ : List AllocatedBlock) (b : AllocatedBlock)
    (q : Nat) (hv : b.map_vaddr = 0) (hs : b.map_size = 0) :
    Find (s₁ ++ b :: s₂) q = Find (s₁ ++ s₂) q := by
  unfold Find
  rw [List.find?_append, List.find?_append,
    List.find?_cons_of_neg _ (by simp [matchesFind_false_of_unmapped hv hs])]

theorem Find_isSome_iff {s : List AllocatedBlock} {q : Nat} :
    (Find s q).isSome ↔
      ∃ b ∈ s, b.map_vaddr ≤ q ∧ q < (b.map_vaddr + b.map_size) % U64 := by
  rw [Find, Option.isSome_map']
  simp [List.find?_isSome, matchesFind]

end PhysicalMemory

namespace FlexibleMemory

theorem Unmap_eq_find (s : List AllocatedBlock) (vaddr size : Nat) :
    Unmap s vaddr size =
      (s.find? (matchesUnmap vaddr size)).map
        (fun b => (b.gpu_mode, s.eraseP (matchesUnmap vaddr size))) := by
  induction s with
  | nil => rfl
  | cons b bs ih =>
    by_cases h : b.map_vaddr = vaddr ∧ b.map_size = size
    · have hb : matchesUnmap vaddr size b = true := by
        simp [matchesUnmap, h.1, h.2]
      simp [Unmap, if_pos h, List.find?_cons_of_pos _ hb, List.eraseP_cons_of_pos hb]
    · have hb : ¬ matchesUnmap vaddr size b = true := by
        simp only [matchesUnmap, Bool.and_eq_true, decide_eq_true_eq]
        exact h
      rw [Unmap, if_neg h, ih, List.find?_cons_of_neg _ hb, List.eraseP_cons_of_neg hb]
      cases hf : bs.find? (matchesUnmap vaddr size) <;> simp

theorem flexUnmap_isSome_iff {s : List AllocatedBlock} {vaddr size : Nat} :
    (Unmap s vaddr size).isSome ↔
      ∃ b ∈ s, b.map_vaddr = vaddr ∧ b.map_size = size := by
  rw [Unmap_eq_find, Option.isSome_map']
  simp [List.find?_isSome, matchesUnmap]

theorem Unmap_eq_none_of_no_match {s : List AllocatedBlock} {vaddr size : Nat}
    (h : ∀ b ∈ s, ¬ (b.map_vaddr = vaddr ∧ b.map_size = size)) :
    Unmap s vaddr size = none := by
  rw [Unmap_eq_find]
  have : s.find? (matchesUnmap vaddr size) = none := by
    rw [List.find?_eq_none]
    intro b hb
    simp only [matchesUnmap, Bool.and_eq_true, decide_eq_true_eq]
    exact h b hb
  rw [this]
  rfl

theorem flexMatchesFind_false_of_unmapped {b : AllocatedBlock} (hv : b.map_vaddr = 0)
    (hs : b.map_size = 0) (q : Nat) : matchesFind q b = false := by
  simp [matchesFind, hv, hs, Nat.zero_mod]

theorem flexFind_isSome_iff {s : List AllocatedBlock} {q : Nat} :
    (Find s q).isSome ↔
      ∃ b ∈ s, b.map_vaddr ≤ q ∧ q < (b.map_vaddr + b.map_size) % U64 := by
  rw [Find, Option.isSome_map']
  simp [List.find?_isSome, matchesFind]

end FlexibleMemory

/-! ### Claim C2 -/

/-- C2 (counterexample): the claim states that `PhysicalMemory::Alloc`
succeeds if and only if the candidate lies within
`[search_start, search_end)` and `candidate + len ≤ search_end`.  With an
empty block list, `search_start = search_end = 0`, `len = 0`,
`alignment = 0`, the candidate is 0, which does not lie in the empty
interval `[0, 0)` — yet the call succeeds.  So the stated equivalence is
false. -/
theorem claim_C2_counterexample :
    (PhysicalMemory.Alloc [] 0 0 0 0).isSome = true ∧
    ¬ ((0:Nat) ≤ 0 ∧ (0:Nat) < 0 ∧ 0 + 0 ≤ (0:Nat)) := by
  constructor
  · rfl
  · intro h
    exact absurd h.2.1 (lt_irrefl 0)

/-- C2 (amended): for every call to `PhysicalMemory::Alloc`, the candidate
equals `get_aligned_pos` applied to the maximum of `start_addr + size`
(64-bit sums) over all current blocks (0 if none); the call succeeds iff
`search_start ≤ candidate` and the 64-bit sum `candidate + len` is
`≤ search_end` — for `len > 0` and no 64-bit overflow this is exactly
"candidate lies within `[search_start, search_end)` and
`candidate + len ≤ search_end`"; on success a new unmapped block
(`map_vaddr = map_size = 0`, `mode = NoAccess`, `gpu_mode = NoAccess`) with
that start and length is appended and the candidate is returned; on failure
the block list is unchanged; and across successful Allocs with no Releases
each returned address is at least the previous returned address plus the
previous length, provided those sums do not overflow 64 bits. -/
theorem claim_C2 :
    (∀ s ss se len al a s', PhysicalMemory.Alloc s ss se len al = some (a, s') →
      a = get_aligned_pos (PhysicalMemory.maxEnd s) al ∧ ss ≤ a ∧
      (a + len) % U64 ≤ se ∧ s' = s ++ [PhysicalMemory.freshBlock a len] ∧
      (PhysicalMemory.freshBlock a len).start_addr = a ∧
      (PhysicalMemory.freshBlock a len).size = len ∧
      (PhysicalMemory.freshBlock a len).map_vaddr = 0 ∧
      (PhysicalMemory.freshBlock a len).map_size = 0 ∧
      (PhysicalMemory.freshBlock a len).mode = Mode.NoAccess ∧
      (PhysicalMemory.freshBlock a len).gpu_mode = GpuMemoryMode.NoAccess) ∧
    (∀ s ss se len al, PhysicalMemory.Alloc s ss se len al = none ↔
      ¬ (ss ≤ get_aligned_pos (PhysicalMemory.maxEnd s) al ∧
         (get_aligned_pos (PhysicalMemory.maxEnd s) al + len) % U64 ≤ se)) ∧
    (∀ s ss se len al, 0 < len →
      get_aligned_pos (PhysicalMemory.maxEnd s) al + len < U64 →
      ((PhysicalMemory.Alloc s ss se len al).isSome ↔
        (ss ≤ get_aligned_pos (PhysicalMemory.maxEnd s) al ∧
         get_aligned_pos (PhysicalMemory.maxEnd s) al < se ∧
         get_aligned_pos (PhysicalMemory.maxEnd s) al + len ≤ se))) ∧
    (∀ s ss se len1 al1 a s1 ss2 se2 len2 al2 b s2,
      PhysicalMemory.Alloc s ss se len1 al1 = some (a, s1) →
      PhysicalMemory.Alloc s1 ss2 se2 len2 al2 = some (b, s2) →
      a + len1 < U64 → PhysicalMemory.maxEnd s1 + al2 ≤ U64 →
      a + len1 ≤ b) := by
  refine ⟨?succ, ?fail, ?orig, ?mono⟩
  case succ =>
    intro s ss se len al a s' h
    obtain ⟨h1, h2, h3, h4⟩ := PhysicalMemory.Alloc_eq_some_iff.mp h
    exact ⟨h1, h2, h3, h4, rfl, rfl, rfl, rfl, rfl, rfl⟩
  case fail =>
    intro s ss se len al
    exact PhysicalMemory.Alloc_eq_none_iff
  case orig =>
    intro s ss se len al hlen hnw
    rw [PhysicalMemory.Alloc_isSome_iff, Nat.mod_eq_of_lt hnw]
    omega
  case mono =>
    intro s ss se len1 al1 a s1 ss2 se2 len2 al2 b s2 h1 h2 hnw hal
    obtain ⟨ha, -, -, hs1⟩ := PhysicalMemory.Alloc_eq_some_iff.mp h1
    obtain ⟨hb, -, -, -⟩ := PhysicalMemory.Alloc_eq_some_iff.mp h2
    have hend : PhysicalMemory.blockEnd (PhysicalMemory.freshBlock a len1) = a + len1 := by
      simp [PhysicalMemory.blockEnd, PhysicalMemory.freshBlock, Nat.mod_eq_of_lt hnw]
    have hmax : a + len1 ≤ PhysicalMemory.maxEnd s1 := by
      have : PhysicalMemory.freshBlock a len1 ∈ s1 := by
        rw [hs1]; exact List.mem_append_right _ (List.mem_singleton_self _)
      have := PhysicalMemory.blockEnd_le_maxEnd this
      omega
    have hge : PhysicalMemory.maxEnd s1 ≤ get_aligned_pos (PhysicalMemory.maxEnd s1) al2 :=
      get_aligned_pos_ge _ _ hal
    omega

/-- C2 witness: two concrete successful allocations from the empty state;
the second address (10) is at least the first address (0) plus the first
length (10). -/
theorem claim_C2_witness : (0:Nat) + 10 ≤ 10 := by
  refine claim_C2.2.2.2 [] 0 100 10 0 0 [PhysicalMemory.freshBlock 0 10]
    0 100 20 0 10 [PhysicalMemory.freshBlock 0 10, PhysicalMemory.freshBlock 10 20]
    ?_ ?_ ?_ ?_
  · rfl
  · rfl
  · decide
  · decide

/-! ### Claim C1 -/

theorem Alloc_preserves_inv {s : List PhysicalMemory.AllocatedBlock}
    {ss se len al a : Nat} {s' : List PhysicalMemory.AllocatedBlock}
    (hs : StateInv s) (h : PhysicalMemory.Alloc s ss se len al = some (a, s')) :
    StateInv s' := by
  obtain ⟨-, -, -, rfl⟩ := PhysicalMemory.Alloc_eq_some_iff.mp h
  intro b hb
  rcases List.mem_append.mp hb with hb | hb
  · exact hs b hb
  · rcases List.mem_singleton.mp hb with rfl
    intro _
    exact ⟨rfl, rfl⟩

theorem Map_preserves_inv {s s' : List PhysicalMemory.AllocatedBlock}
    {vaddr phys len : Nat} {prot : Int} {mode : Mode} {gpu : GpuMemoryMode}
    (hs : StateInv s) (hvl : vaddr ≠ 0 ∨ len ≠ 0)
    (h : PhysicalMemory.Map s vaddr phys len prot mode gpu = some s') :
    StateInv s' := by
  obtain ⟨s₁, b, s₂, rfl, -, -, -, -, rfl⟩ := PhysicalMemory.Map_eq_some_elim h
  intro c hc
  rcases List.mem_append.mp hc with hc | hc
  · exact hs c (List.mem_append.mpr (Or.inl hc))
  · rcases List.mem_cons.mp hc with rfl | hc'
    · intro hcc
      exfalso
      rcases hvl with hv | hl
      · exact hv hcc.1
      · exact hl hcc.2
    · exact hs c (List.mem_append.mpr (Or.inr (List.mem_cons_of_mem _ hc')))

theorem Unmap_preserves_inv {s : List PhysicalMemory.AllocatedBlock}
    {vaddr size : Nat} {g : GpuMemoryMode} {s' : List PhysicalMemory.AllocatedBlock}
    (hs : StateInv s) (h : PhysicalMemory.Unmap s vaddr size = some (g, s')) :
    StateInv s' := by
  induction s generalizing g s' with
  | nil => cases h
  | cons b bs ih =>
    by_cases hb : b.map_vaddr = vaddr ∧ b.map_size = size
    · simp only [PhysicalMemory.Unmap, if_pos hb, Option.some.injEq,
        Prod.mk.injEq] at h
      obtain ⟨rfl, rfl⟩ := h
      intro c hc
      rcases List.mem_cons.mp hc with rfl | hc'
      · intro _
        exact ⟨rfl, rfl⟩
      · exact hs c (List.mem_cons_of_mem _ hc')
    · simp only [PhysicalMemory.Unmap, if_neg hb, Option.map_eq_some'] at h
      obtain ⟨⟨g', t⟩, ht, heq⟩ := h
      cases heq
      intro c hc
      rcases List.mem_cons.mp hc with rfl | hc'
      · exact hs c (List.mem_cons_self _ _)
      · exact ih (fun d hd => hs d (List.mem_cons_of_mem _ hd)) ht c hc'

theorem Release_preserves_inv {s : List PhysicalMemory.AllocatedBlock}
    {start len : Nat} {info : Nat × Nat × GpuMemoryMode}
    {s' : List PhysicalMemory.AllocatedBlock}
    (hs : StateInv s) (h : PhysicalMemory.Release s start len = some (info, s')) :
    StateInv s' := by
  rw [PhysicalMemory.Release_eq_find] at h
  rcases Option.map_eq_some'.mp h with ⟨b, -, heq⟩
  cases heq
  intro c hc
  exact hs c ((List.eraseP_sublist s).subset hc)

/-- C1 (counterexample): the claim asserts the invariant (an unmapped block
has `mode = NoAccess`, `gpu_mode = NoAccess`) is preserved by
`PhysicalMemory::Map`.  But `Map` with `vaddr = 0` and `len = 0` on an
allocated-but-unmapped block succeeds and stores the requested
`mode`/`gpu_mode` while leaving `map_vaddr = map_size = 0`, producing a
block that violates the invariant. -/
theorem claim_C1_counterexample :
    PhysicalMemory.Map [⟨0, 10, 0, 0, 0, Mode.NoAccess, GpuMemoryMode.NoAccess⟩]
        0 5 0 3 Mode.ReadWrite GpuMemoryMode.ReadWrite
      = some [⟨0, 10, 0, 0, 3, Mode.ReadWrite, GpuMemoryMode.ReadWrite⟩] ∧
    ¬ StateInv [⟨0, 10, 0, 0, 3, Mode.ReadWrite, GpuMemoryMode.ReadWrite⟩] := by
  constructor
  · decide
  · decide

/-- C1 (amended): every block is either unmapped (and then, under the
invariant, `mode = NoAccess`, `gpu_mode = NoAccess`) or carries exactly one
mapping.  `PhysicalMemory::Map` on an address whose first containing block
(in scan order) already has an active mapping (`map_vaddr ≠ 0` or
`map_size ≠ 0`) returns false and changes no block field; and the invariant
is preserved by `Alloc`, `Unmap`, `Release`, and by `Map` whenever the
requested mapping is not `(vaddr, len) = (0, 0)` — which holds for every
call the kernel API makes, since `KernelMapDirectMemory` only calls `Map`
with a nonzero host address. -/
theorem claim_C1 :
    (∀ s₁ s₂ (b : PhysicalMemory.AllocatedBlock) vaddr phys len prot mode gpu,
      (b.map_vaddr ≠ 0 ∨ b.map_size ≠ 0) →
      (phys ≥ b.start_addr ∧ phys < PhysicalMemory.blockEnd b) →
      (∀ c ∈ s₁, ¬ (phys ≥ c.start_addr ∧ phys < PhysicalMemory.blockEnd c)) →
      PhysicalMemory.Map (s₁ ++ b :: s₂) vaddr phys len prot mode gpu = none) ∧
    (∀ s ss se len al a s', StateInv s →
      PhysicalMemory.Alloc s ss se len al = some (a, s') → StateInv s') ∧
    (∀ s vaddr phys len prot mode gpu s', StateInv s → (vaddr ≠ 0 ∨ len ≠ 0) →
      PhysicalMemory.Map s vaddr phys len prot mode gpu = some s' → StateInv s') ∧
    (∀ s vaddr size g s', StateInv s →
      PhysicalMemory.Unmap s vaddr size = some (g, s') → StateInv s') ∧
    (∀ s start len info s', StateInv s →
      PhysicalMemory.Release s start len = some (info, s') → StateInv s') := by
  refine ⟨?_, ?_, ?_, ?_, ?_⟩
  · intro s₁ s₂ b vaddr phys len prot mode gpu hm hc he
    exact PhysicalMemory.Map_fails_of_first_mapped s₁ s₂ b vaddr phys len prot mode gpu hm hc he
  · intro s ss se len al a s' hs h
    exact Alloc_preserves_inv hs h
  · intro s vaddr phys len prot mode gpu s' hs hvl h
    exact Map_preserves_inv hs hvl h
  · intro s vaddr size g s' hs h
    exact Unmap_preserves_inv hs h
  · intro s start len info s' hs h
    exact Release_preserves_inv hs h

/-- C1 witness: `Map` on an address (5) inside a block that already has an
active mapping fails. -/
theorem claim_C1_witness :
    PhysicalMemory.Map [⟨0, 10, 5, 7, 3, Mode.ReadWrite, GpuMemoryMode.NoAccess⟩]
      100 5 4 1 Mode.Read GpuMemoryMode.NoAccess = none :=
  claim_C1.1 [] [] ⟨0, 10, 5, 7, 3, Mode.ReadWrite, GpuMemoryMode.NoAccess⟩
    100 5 4 1 Mode.Read GpuMemoryMode.NoAccess (by decide) (by decide)
    (by intro c hc; cases hc)

/-! ### Claim C4 -/

/-- C4: `PhysicalMemory::Release`, `PhysicalMemory::Unmap` and
`FlexibleMemory::Unmap` succeed exactly when `(start, len)` (resp.
`(vaddr, size)`) equals some block's `(start_addr, size)` (resp.
`(map_vaddr, map_size)`); a request that does not match exactly — even one
overlapping an entry — fails and leaves the state unchanged; and a
successful `Release` removes the first matching block and returns its last
mapping state `(map_vaddr, map_size, gpu_mode)` (zeros and `NoAccess` if it
was never mapped). -/
theorem claim_C4 :
    (∀ s start len, (PhysicalMemory.Release s start len).isSome ↔
      ∃ b ∈ s, start = b.start_addr ∧ len = b.size) ∧
    (∀ s start len, (∀ b ∈ s, ¬ (start = b.start_addr ∧ len = b.size)) →
      PhysicalMemory.Release s start len = none) ∧
    (∀ s₁ s₂ (b : PhysicalMemory.AllocatedBlock) start len,
      (start = b.start_addr ∧ len = b.size) →
      (∀ c ∈ s₁, ¬ (start = c.start_addr ∧ len = c.size)) →
      PhysicalMemory.Release (s₁ ++ b :: s₂) start len =
        some ((b.map_vaddr, b.map_size, b.gpu_mode), s₁ ++ s₂)) ∧
    (∀ s vaddr size, (PhysicalMemory.Unmap s vaddr size).isSome ↔
      ∃ b ∈ s, b.map_vaddr = vaddr ∧ b.map_size = size) ∧
    (∀ s vaddr size, (∀ b ∈ s, ¬ (b.map_vaddr = vaddr ∧ b.map_size = size)) →
      PhysicalMemory.Unmap s vaddr size = none) ∧
    (∀ s vaddr size, (FlexibleMemory.Unmap s vaddr size).isSome ↔
      ∃ b ∈ s, b.map_vaddr = vaddr ∧ b.map_size = size) ∧
    (∀ s vaddr size, (∀ b ∈ s, ¬ (b.map_vaddr = vaddr ∧ b.map_size = size)) →
      FlexibleMemory.Unmap s vaddr size = none) := by
  refine ⟨?_, ?_, ?_, ?_, ?_, ?_, ?_⟩
  · intro s start len
    exact PhysicalMemory.Release_isSome_iff
  · intro s start len h
    exact PhysicalMemory.Release_eq_none_of_no_match h
  · intro s₁ s₂ b start len hb he
    exact PhysicalMemory.Release_first_match s₁ s₂ b start len hb he
  · intro s vaddr size
    exact PhysicalMemory.Unmap_isSome_iff
  · intro s vaddr size h
    exact PhysicalMemory.Unmap_eq_none_iff.mpr h
  · intro s vaddr size
    exact FlexibleMemory.flexUnmap_isSome_iff
  · intro s vaddr size h
    exact FlexibleMemory.Unmap_eq_none_of_no_match h

/-- C4 witness: releasing `(0, 5)` against a single block `(0, 10)` — an
overlapping but not exactly matching request — fails. -/
theorem claim_C4_witness :
    PhysicalMemory.Release
      [⟨0, 10, 0, 0, 0, Mode.NoAccess, GpuMemoryMode.NoAccess⟩] 0 5 = none :=
  claim_C4.2.1 [⟨0, 10, 0, 0, 0, Mode.NoAccess, GpuMemoryMode.NoAccess⟩] 0 5
    (by decide)

/-! ### Claim C5 -/

theorem get_aligned_pos_id01 {al : Nat} (h : al = 0 ∨ al = 1) {pos : Nat}
    (hp : pos < U64) : get_aligned_pos pos al = pos := by
  rcases h with rfl | rfl
  · exact get_aligned_pos_zero pos
  · exact get_aligned_pos_one pos hp

theorem maxEnd_singleton (b : PhysicalMemory.AllocatedBlock) :
    PhysicalMemory.maxEnd [b] = PhysicalMemory.blockEnd b := by
  simp [PhysicalMemory.maxEnd]

/-- C5: with alignment 0 or 1 and a search window that fits (no 64-bit
overflow of `A + len1 + len2`), after `Allocate` returns `A` (length
`len1`), `Allocate` returns `B` (length `len2`), and `Release(A, len1)`
succeeds, the next successful `Allocate` returns `B + len2`: the hole left
at `A` is not reused. -/
theorem claim_C5 :
    ∀ s ss1 se1 len1 al1 a s1 ss2 se2 len2 al2 b s2 info s3 ss4 se4 len3 al4 c s4,
      (al1 = 0 ∨ al1 = 1) → (al2 = 0 ∨ al2 = 1) → (al4 = 0 ∨ al4 = 1) →
      a + len1 + len2 < U64 →
      PhysicalMemory.Alloc s ss1 se1 len1 al1 = some (a, s1) →
      PhysicalMemory.Alloc s1 ss2 se2 len2 al2 = some (b, s2) →
      PhysicalMemory.Release s2 a len1 = some (info, s3) →
      PhysicalMemory.Alloc s3 ss4 se4 len3 al4 = some (c, s4) →
      c = b + len2 := by
  intro s ss1 se1 len1 al1 a s1 ss2 se2 len2 al2 b s2 info s3 ss4 se4 len3 al4 c s4
  intro hal1 hal2 hal4 hnw h1 h2 h3 h4
  obtain ⟨ha, -, -, hs1⟩ := PhysicalMemory.Alloc_eq_some_iff.mp h1
  obtain ⟨hb, -, -, hs2⟩ := PhysicalMemory.Alloc_eq_some_iff.mp h2
  obtain ⟨hc, -, -, -⟩ := PhysicalMemory.Alloc_eq_some_iff.mp h4
  rw [get_aligned_pos_id01 hal1 (PhysicalMemory.maxEnd_lt s)] at ha
  have hend1 : PhysicalMemory.blockEnd (PhysicalMemory.freshBlock a len1) = a + len1 := by
    simp only [PhysicalMemory.blockEnd, PhysicalMemory.freshBlock]
    exact Nat.mod_eq_of_lt (by omega)
  have hm1 : PhysicalMemory.maxEnd s1 = a + len1 := by
    subst hs1
    rw [PhysicalMemory.maxEnd_append, maxEnd_singleton, hend1, ← ha]
    exact max_eq_right (Nat.le_add_right a len1)
  rw [get_aligned_pos_id01 hal2 (PhysicalMemory.maxEnd_lt s1), hm1] at hb
  have hend2 : PhysicalMemory.blockEnd (PhysicalMemory.freshBlock b len2) = b + len2 := by
    simp only [PhysicalMemory.blockEnd, PhysicalMemory.freshBlock]
    exact Nat.mod_eq_of_lt (by omega)
  rw [PhysicalMemory.Release_eq_find] at h3
  rcases Option.map_eq_some'.mp h3 with ⟨d, -, heq⟩
  cases heq
  have hpf1 : PhysicalMemory.matchesRelease a len1 (PhysicalMemory.freshBlock a len1) = true := by
    simp [PhysicalMemory.matchesRelease, PhysicalMemory.freshBlock]
  have herase : (s2.eraseP (PhysicalMemory.matchesRelease a len1)) =
      ((s ++ [PhysicalMemory.freshBlock a len1]).eraseP
        (PhysicalMemory.matchesRelease a len1)) ++ [PhysicalMemory.freshBlock b len2] := by
    subst hs2
    subst hs1
    exact List.eraseP_append_left hpf1 _
      (List.mem_append_right _ (List.mem_singleton_self _))
  have hm3 : PhysicalMemory.maxEnd (s2.eraseP (PhysicalMemory.matchesRelease a len1)) =
      b + len2 := by
    rw [herase, PhysicalMemory.maxEnd_append, maxEnd_singleton, hend2]
    refine max_eq_right ?_
    have hsub : List.Sublist
        ((s ++ [PhysicalMemory.freshBlock a len1]).eraseP
          (PhysicalMemory.matchesRelease a len1))
        (s ++ [PhysicalMemory.freshBlock a len1]) := List.eraseP_sublist _
    have hle := PhysicalMemory.maxEnd_le_of_sublist hsub
    have : PhysicalMemory.maxEnd (s ++ [PhysicalMemory.freshBlock a len1]) = a + len1 := by
      rw [PhysicalMemory.maxEnd_append, maxEnd_singleton, hend1, ← ha]
      exact max_eq_right (Nat.le_add_right a len1)
    omega
  rw [get_aligned_pos_id01 hal4 (PhysicalMemory.maxEnd_lt _), hm3] at hc
  exact hc

/-- C5 witness: a concrete four-step run — Allocate 10 at 0, Allocate 20 at
10, Release (0, 10), Allocate 5 — yields 30 = 10 + 20. -/
theorem claim_C5_witness : (30:Nat) = 10 + 20 :=
  claim_C5 [] 0 1000 10 0 0 [PhysicalMemory.freshBlock 0 10] 0 1000 20 0 10
    [PhysicalMemory.freshBlock 0 10, PhysicalMemory.freshBlock 10 20]
    (0, 0, GpuMemoryMode.NoAccess) [PhysicalMemory.freshBlock 10 20]
    0 1000 5 0 30 [PhysicalMemory.freshBlock 10 20, PhysicalMemory.freshBlock 30 5]
    (Or.inl rfl) (Or.inl rfl) (Or.inl rfl) (by decide) (by decide) (by decide)
    (by decide) (by decide)

/-! ### Claim C6 -/

/-- C6: `Find` (both managers) succeeds on an address iff some entry's
mapping range contains it under `map_vaddr ≤ vaddr < map_vaddr + map_size`
(64-bit sum); unmapped physical blocks never match any address; and in a
state where exactly one entry is mapped, over `[v, v+len)`, `Find v` and
`Find (v+len-1)` both succeed and return that entry's attributes
(identical base, length, prot, mode, gpu_mode) while `Find (v+len)` fails
(exclusive upper bound). -/
theorem claim_C6 :
    (∀ s q, (PhysicalMemory.Find s q).isSome ↔
      ∃ b ∈ s, b.map_vaddr ≤ q ∧ q < (b.map_vaddr + b.map_size) % U64) ∧
    (∀ s q, (FlexibleMemory.Find s q).isSome ↔
      ∃ b ∈ s, b.map_vaddr ≤ q ∧ q < (b.map_vaddr + b.map_size) % U64) ∧
    (∀ s₁ s₂ (b : PhysicalMemory.AllocatedBlock) q,
      b.map_vaddr = 0 → b.map_size = 0 →
      PhysicalMemory.Find (s₁ ++ b :: s₂) q = PhysicalMemory.Find (s₁ ++ s₂) q) ∧
    (∀ s (b : PhysicalMemory.AllocatedBlock) v len, b ∈ s →
      b.map_vaddr = v → b.map_size = len → 0 < len → v + len < U64 →
      (∀ c ∈ s, c = b ∨ (c.map_vaddr = 0 ∧ c.map_size = 0)) →
      PhysicalMemory.Find s v = some ⟨v, len, b.prot, b.mode, b.gpu_mode⟩ ∧
      PhysicalMemory.Find s (v + len - 1) = some ⟨v, len, b.prot, b.mode, b.gpu_mode⟩ ∧
      PhysicalMemory.Find s (v + len) = none) ∧
    (∀ s (b : FlexibleMemory.AllocatedBlock) v len, b ∈ s →
      b.map_vaddr = v → b.map_size = len → 0 < len → v + len < U64 →
      (∀ c ∈ s, c = b ∨ (c.map_vaddr = 0 ∧ c.map_size = 0)) →
      FlexibleMemory.Find s v = some ⟨v, len, b.prot, b.mode, b.gpu_mode⟩ ∧
      FlexibleMemory.Find s (v + len - 1) = some ⟨v, len, b.prot, b.mode, b.gpu_mode⟩ ∧
      FlexibleMemory.Find s (v + len) = none) := by
  have hmod : ∀ v len : Nat, v + len < U64 → (v + len) % U64 = v + len :=
    fun v len h => Nat.mod_eq_of_lt h
  refine ⟨?_, ?_, ?_, ?_, ?_⟩
  · intro s q
    exact PhysicalMemory.Find_isSome_iff
  · intro s q
    exact FlexibleMemory.flexFind_isSome_iff
  · intro s₁ s₂ b q hv hs
    exact PhysicalMemory.Find_drop_unmapped s₁ s₂ b q hv hs
  · intro s b v len hmem hv hlen hpos hnw hone
    have hmb : ∀ q, v ≤ q → q < v + len → PhysicalMemory.matchesFind q b = true := by
      intro q h1 h2
      simp only [PhysicalMemory.matchesFind, hv, hlen, Bool.and_eq_true,
        decide_eq_true_eq, ge_iff_le, hmod v len hnw]
      exact ⟨h1, h2⟩
    have huniq : ∀ q, ∀ x ∈ s, PhysicalMemory.matchesFind q x = true → x = b := by
      intro q x hx hpx
      rcases hone x hx with rfl | hun
      · rfl
      · rw [PhysicalMemory.matchesFind_false_of_unmapped hun.1 hun.2] at hpx
        cases hpx
    have hfind : ∀ q, v ≤ q → q < v + len →
        PhysicalMemory.Find s q = some ⟨v, len, b.prot, b.mode, b.gpu_mode⟩ := by
      intro q h1 h2
      rw [PhysicalMemory.Find,
        find_eq_some_of_unique hmem (hmb q h1 h2) (huniq q), Option.map_some', hv, hlen]
    refine ⟨hfind v (le_refl v) (by omega), hfind (v + len - 1) (by omega) (by omega), ?_⟩
    rw [PhysicalMemory.Find, List.find?_eq_none.mpr, Option.map_none']
    intro x hx
    rcases hone x hx with rfl | hun
    · simp only [PhysicalMemory.matchesFind, hv, hlen, Bool.and_eq_true,
        decide_eq_true_eq, ge_iff_le, hmod v len hnw]
      intro h
      omega
    · rw [PhysicalMemory.matchesFind_false_of_unmapped hun.1 hun.2]
      intro h
      cases h
  · intro s b v len hmem hv hlen hpos hnw hone
    have hmb : ∀ q, v ≤ q → q < v + len → FlexibleMemory.matchesFind q b = true := by
      intro q h1 h2
      simp only [FlexibleMemory.matchesFind, hv, hlen, Bool.and_eq_true,
        decide_eq_true_eq, ge_iff_le, hmod v len hnw]
      exact ⟨h1, h2⟩
    have huniq : ∀ q, ∀ x ∈ s, FlexibleMemory.matchesFind q x = true → x = b := by
      intro q x hx hpx
      rcases hone x hx with rfl | hun
      · rfl
      · rw [FlexibleMemory.flexMatchesFind_false_of_unmapped hun.1 hun.2] at hpx
        cases hpx
    have hfind : ∀ q, v ≤ q → q < v + len →
        FlexibleMemory.Find s q = some ⟨v, len, b.prot, b.mode, b.gpu_mode⟩ := by
      intro q h1 h2
      rw [FlexibleMemory.Find,
        find_eq_some_of_unique hmem (hmb q h1 h2) (huniq q), Option.map_some', hv, hlen]
    refine ⟨hfind v (le_refl v) (by omega), hfind (v + len - 1) (by omega) (by omega), ?_⟩
    rw [FlexibleMemory.Find, List.find?_eq_none.mpr, Option.map_none']
    intro x hx
    rcases hone x hx with rfl | hun
    · simp only [FlexibleMemory.matchesFind, hv, hlen, Bool.and_eq_true,
        decide_eq_true_eq, ge_iff_le, hmod v len hnw]
      intro h
      omega
    · rw [FlexibleMemory.flexMatchesFind_false_of_unmapped hun.1 hun.2]
      intro h
      cases h

/-- C6 witness: one block mapped over `[5, 12)`; `Find 5` and `Find 11`
return its attributes, `Find 12` fails. -/
theorem claim_C6_witness :
    PhysicalMemory.Find [⟨0, 0, 5, 7, 3, Mode.ReadWrite, GpuMemoryMode.NoAccess⟩] 5 =
      some ⟨5, 7, 3, Mode.ReadWrite, GpuMemoryMode.NoAccess⟩ ∧
    PhysicalMemory.Find [⟨0, 0, 5, 7, 3, Mode.ReadWrite, GpuMemoryMode.NoAccess⟩] (5 + 7 - 1) =
      some ⟨5, 7, 3, Mode.ReadWrite, GpuMemoryMode.NoAccess⟩ ∧
    PhysicalMemory.Find [⟨0, 0, 5, 7, 3, Mode.ReadWrite, GpuMemoryMode.NoAccess⟩] (5 + 7) =
      none :=
  claim_C6.2.2.2.1 [⟨0, 0, 5, 7, 3, Mode.ReadWrite, GpuMemoryMode.NoAccess⟩]
    ⟨0, 0, 5, 7, 3, Mode.ReadWrite, GpuMemoryMode.NoAccess⟩ 5 7
    (List.mem_singleton_self _) rfl rfl (by decide) (by decide) (by decide)

/-! ### Claim C7 -/

/-- C7 (counterexample): the claim states that a successful `Map` followed
by a successful `Unmap` on the same `(vaddr, len)` is invisible to `Find`.
But `Unmap` clears the **first** block whose mapping equals `(vaddr, len)`.
Starting from a state where block A (physical 100..110) is already mapped
at `(5, 7)` and block B (physical 200..210) is unmapped, mapping B at the
same `(5, 7)` and then unmapping `(5, 7)` clears A instead of B, leaving a
state where `Find 5` reports B's attributes instead of A's. -/
theorem claim_C7_counterexample :
    PhysicalMemory.Map
        [⟨100, 10, 5, 7, 3, Mode.ReadWrite, GpuMemoryMode.NoAccess⟩,
         ⟨200, 10, 0, 0, 0, Mode.NoAccess, GpuMemoryMode.NoAccess⟩]
        5 200 7 1 Mode.Read GpuMemoryMode.NoAccess
      = some [⟨100, 10, 5, 7, 3, Mode.ReadWrite, GpuMemoryMode.NoAccess⟩,
              ⟨200, 10, 5, 7, 1, Mode.Read, GpuMemoryMode.NoAccess⟩] ∧
    PhysicalMemory.Unmap
        [⟨100, 10, 5, 7, 3, Mode.ReadWrite, GpuMemoryMode.NoAccess⟩,
         ⟨200, 10, 5, 7, 1, Mode.Read, GpuMemoryMode.NoAccess⟩] 5 7
      = some (GpuMemoryMode.NoAccess,
          [⟨100, 10, 0, 0, 0, Mode.NoAccess, GpuMemoryMode.NoAccess⟩,
           ⟨200, 10, 5, 7, 1, Mode.Read, GpuMemoryMode.NoAccess⟩]) ∧
    PhysicalMemory.Find
        [⟨100, 10, 0, 0, 0, Mode.NoAccess, GpuMemoryMode.NoAccess⟩,
         ⟨200, 10, 5, 7, 1, Mode.Read, GpuMemoryMode.NoAccess⟩] 5 ≠
    PhysicalMemory.Find
        [⟨100, 10, 5, 7, 3, Mode.ReadWrite, GpuMemoryMode.NoAccess⟩,
         ⟨200, 10, 0, 0, 0, Mode.NoAccess, GpuMemoryMode.NoAccess⟩] 5 :=
  ⟨by decide, by decide, by decide⟩

/-- C7 (amended): provided no block of the starting state already has a
mapping equal to `(vaddr, len)`, a successful `Map(vaddr, phys, len, …)`
followed by a successful `Unmap(vaddr, len)` returns the manager to a
state indistinguishable via `Find` (for every query address) from the
state before the `Map`. -/
theorem claim_C7 :
    ∀ s s' s'' (vaddr phys len : Nat) (prot : Int) (mode : Mode)
      (gpu g : GpuMemoryMode),
      (∀ c ∈ s, ¬ (c.map_vaddr = vaddr ∧ c.map_size = len)) →
      PhysicalMemory.Map s vaddr phys len prot mode gpu = some s' →
      PhysicalMemory.Unmap s' vaddr len = some (g, s'') →
      ∀ q, PhysicalMemory.Find s'' q = PhysicalMemory.Find s q := by
  intro s s' s'' vaddr phys len prot mode gpu g hno hM hU
  obtain ⟨s₁, b, s₂, rfl, -, -, hbv, hbs, rfl⟩ := PhysicalMemory.Map_eq_some_elim hM
  have hub : (PhysicalMemory.mapBlock b vaddr len prot mode gpu).map_vaddr = vaddr ∧
      (PhysicalMemory.mapBlock b vaddr len prot mode gpu).map_size = len := ⟨rfl, rfl⟩
  have hearlier : ∀ c ∈ s₁, ¬ (c.map_vaddr = vaddr ∧ c.map_size = len) :=
    fun c hc => hno c (List.mem_append.mpr (Or.inl hc))
  rw [PhysicalMemory.Unmap_first_match s₁ s₂ _ vaddr len hub hearlier] at hU
  cases hU
  intro q
  exact PhysicalMemory.Find_middle_congr s₁ s₂ _ b q
    (PhysicalMemory.matchesFind_false_of_unmapped rfl rfl q)
    (PhysicalMemory.matchesFind_false_of_unmapped hbv hbs q)

/-- C7 witness: mapping the single unmapped block at `(100, 4)` and
unmapping `(100, 4)` leaves `Find` at 100 unchanged. -/
theorem claim_C7_witness :
    PhysicalMemory.Find [⟨0, 10, 0, 0, 0, Mode.NoAccess, GpuMemoryMode.NoAccess⟩] 100 =
    PhysicalMemory.Find [⟨0, 10, 0, 0, 0, Mode.NoAccess, GpuMemoryMode.NoAccess⟩] 100 :=
  claim_C7 [⟨0, 10, 0, 0, 0, Mode.NoAccess, GpuMemoryMode.NoAccess⟩]
    [⟨0, 10, 100, 4, 1, Mode.Read, GpuMemoryMode.NoAccess⟩]
    [⟨0, 10, 0, 0, 0, Mode.NoAccess, GpuMemoryMode.NoAccess⟩]
    100 5 4 1 Mode.Read GpuMemoryMode.NoAccess GpuMemoryMode.NoAccess
    (by decide) (by decide) (by decide) 100

/-! ### Claim C3 -/

/-- C3: the protection decode of `KernelMapDirectMemory` and
`KernelMapNamedFlexibleMemory` matches the section 4.1 table exactly:
0 → NoAccess, 1 → Read, 2/3 → ReadWrite, 4 → Execute, 5 → ExecuteRead,
6/7 → ExecuteReadWrite (each with `gpu_mode = NoAccess`); 0x32/0x33 →
ReadWrite with `gpu_mode = ReadWrite`, accepted only by the direct-memory
entry point; every other code — including 0x32/0x33 passed to the flexible
entry point — makes the entry point fatal (`EXIT`, not an error return). -/
theorem claim_C3 :
    (decodeProtDirect 0 = some (Mode.NoAccess, GpuMemoryMode.NoAccess) ∧
     decodeProtDirect 1 = some (Mode.Read, GpuMemoryMode.NoAccess) ∧
     decodeProtDirect 2 = some (Mode.ReadWrite, GpuMemoryMode.NoAccess) ∧
     decodeProtDirect 3 = some (Mode.ReadWrite, GpuMemoryMode.NoAccess) ∧
     decodeProtDirect 4 = some (Mode.Execute, GpuMemoryMode.NoAccess) ∧
     decodeProtDirect 5 = some (Mode.ExecuteRead, GpuMemoryMode.NoAccess) ∧
     decodeProtDirect 6 = some (Mode.ExecuteReadWrite, GpuMemoryMode.NoAccess) ∧
     decodeProtDirect 7 = some (Mode.ExecuteReadWrite, GpuMemoryMode.NoAccess) ∧
     decodeProtDirect 0x32 = some (Mode.ReadWrite, GpuMemoryMode.ReadWrite) ∧
     decodeProtDirect 0x33 = some (Mode.ReadWrite, GpuMemoryMode.ReadWrite)) ∧
    (decodeProtFlexible 0 = some (Mode.NoAccess, GpuMemoryMode.NoAccess) ∧
     decodeProtFlexible 1 = some (Mode.Read, GpuMemoryMode.NoAccess) ∧
     decodeProtFlexible 2 = some (Mode.ReadWrite, GpuMemoryMode.NoAccess) ∧
     decodeProtFlexible 3 = some (Mode.ReadWrite, GpuMemoryMode.NoAccess) ∧
     decodeProtFlexible 4 = some (Mode.Execute, GpuMemoryMode.NoAccess) ∧
     decodeProtFlexible 5 = some (Mode.ExecuteRead, GpuMemoryMode.NoAccess) ∧
     decodeProtFlexible 6 = some (Mode.ExecuteReadWrite, GpuMemoryMode.NoAccess) ∧
     decodeProtFlexible 7 = some (Mode.ExecuteReadWrite, GpuMemoryMode.NoAccess)) ∧
    (decodeProtFlexible 0x32 = none ∧ decodeProtFlexible 0x33 = none) ∧
    (∀ p : Int, p ≠ 0 → p ≠ 1 → p ≠ 2 → p ≠ 3 → p ≠ 4 → p ≠ 5 → p ≠ 6 → p ≠ 7 →
      p ≠ 0x32 → p ≠ 0x33 → decodeProtDirect p = none) ∧
    (∀ p : Int, p ≠ 0 → p ≠ 1 → p ≠ 2 → p ≠ 3 → p ≠ 4 → p ≠ 5 → p ≠ 6 → p ≠ 7 →
      decodeProtFlexible p = none) ∧
    (∀ phys len p flags dms hoa, decodeProtDirect p = none →
      KernelMapDirectMemory phys len p flags dms hoa = none) ∧
    (∀ flex len p flags hoa, decodeProtFlexible p = none →
      KernelMapNamedFlexibleMemory flex len p flags hoa = none) := by
  refine ⟨by decide, by decide, by decide, ?_, ?_, ?_, ?_⟩
  · intro p h0 h1 h2 h3 h4 h5 h6 h7 h32 h33
    simp [decodeProtDirect, h0, h1, h2, h3, h4, h5, h6, h7, h32, h33]
  · intro p h0 h1 h2 h3 h4 h5 h6 h7
    simp [decodeProtFlexible, h0, h1, h2, h3, h4, h5, h6, h7]
  · intro phys len p flags dms hoa hdec
    by_cases hf : flags ≠ 0
    · simp [KernelMapDirectMemory, hf]
    · simp [KernelMapDirectMemory, hf, hdec]
  · intro flex len p flags hoa hdec
    by_cases hf : flags ≠ 0
    · simp [KernelMapNamedFlexibleMemory, hf]
    · simp [KernelMapNamedFlexibleMemory, hf, hdec]

/-- C3 witness: code 8 is outside the table and decodes to the fatal
branch in both entry points. -/
theorem claim_C3_witness :
    decodeProtDirect 8 = none ∧ decodeProtFlexible 8 = none :=
  ⟨claim_C3.2.2.2.1 8 (by decide) (by decide) (by decide) (by decide) (by decide)
      (by decide) (by decide) (by decide) (by decide) (by decide),
   claim_C3.2.2.2.2.1 8 (by decide) (by decide) (by decide) (by decide) (by decide)
      (by decide) (by decide) (by decide)⟩

/-! ### Claim C8 -/

/-- C8: `KernelMunmap` with `len = 0` returns the invalid-argument error
without touching either manager (the `vaddr < 0` test is vacuous on
`uint64_t`, so `len == 0` is the only recoverable rejection); otherwise the
physical manager's `Unmap` is tried first and, only if it fails, the
flexible manager's; if neither matches the call is fatal (`none`), not an
error return; on success the host virtual range is freed and, if the
removed mapping was GPU-visible, the GPU drain (`GraphicsRunWait`) happens
before the GPU range is freed. -/
theorem claim_C8 :
    (∀ phys flex vaddr,
      KernelMunmap phys flex vaddr 0 = some (Status.EINVAL, phys, flex, [])) ∧
    (∀ phys flex vaddr len g phys', len ≠ 0 →
      PhysicalMemory.Unmap phys vaddr len = some (g, phys') →
      KernelMunmap phys flex vaddr len = some (Status.OK, phys', flex,
        Event.VirtualMemoryFree vaddr ::
        (if g ≠ GpuMemoryMode.NoAccess then
          [Event.GraphicsRunWait, Event.GpuMemoryFree vaddr len] else []))) ∧
    (∀ phys flex vaddr len g flex', len ≠ 0 →
      PhysicalMemory.Unmap phys vaddr len = none →
      FlexibleMemory.Unmap flex vaddr len = some (g, flex') →
      KernelMunmap phys flex vaddr len = some (Status.OK, phys, flex',
        Event.VirtualMemoryFree vaddr ::
        (if g ≠ GpuMemoryMode.NoAccess then
          [Event.GraphicsRunWait, Event.GpuMemoryFree vaddr len] else []))) ∧
    (∀ phys flex vaddr len, len ≠ 0 →
      PhysicalMemory.Unmap phys vaddr len = none →
      FlexibleMemory.Unmap flex vaddr len = none →
      KernelMunmap phys flex vaddr len = none) := by
  have hcond : ∀ (vaddr len : Nat), len ≠ 0 → ¬ (vaddr < 0 ∨ len = 0) := by
    intro vaddr len hlen h
    rcases h with h | h
    · exact Nat.not_lt_zero vaddr h
    · exact hlen h
  refine ⟨?_, ?_, ?_, ?_⟩
  · intro phys flex vaddr
    simp [KernelMunmap]
  · intro phys flex vaddr len g phys' hlen hu
    simp only [KernelMunmap, if_neg (hcond vaddr len hlen), hu]
    rw [if_pos (Or.inr hlen)]
    rfl
  · intro phys flex vaddr len g flex' hlen hp hf
    simp only [KernelMunmap, if_neg (hcond vaddr len hlen), hp, hf]
    rw [if_pos (Or.inr hlen)]
    rfl
  · intro phys flex vaddr len hlen hp hf
    simp only [KernelMunmap, if_neg (hcond vaddr len hlen), hp, hf]

/-- C8 witness: unmapping a GPU-visible physical mapping `(5, 7)` frees the
host range and then drains the GPU before freeing the GPU range. -/
theorem claim_C8_witness :
    KernelMunmap [⟨0, 10, 5, 7, 0x32, Mode.ReadWrite, GpuMemoryMode.ReadWrite⟩] [] 5 7 =
      some (Status.OK, [⟨0, 10, 0, 0, 0, Mode.NoAccess, GpuMemoryMode.NoAccess⟩], [],
        [Event.VirtualMemoryFree 5, Event.GraphicsRunWait, Event.GpuMemoryFree 5 7]) :=
  claim_C8.2.1 [⟨0, 10, 5, 7, 0x32, Mode.ReadWrite, GpuMemoryMode.ReadWrite⟩] [] 5 7
    GpuMemoryMode.ReadWrite [⟨0, 10, 0, 0, 0, Mode.NoAccess, GpuMemoryMode.NoAccess⟩]
    (by decide) (by decide)

/-! ### Claim C9 -/

/-- C9: `KernelAllocateDirectMemory` returns invalid-argument — before the
physical manager is consulted and with its state unchanged — when
`search_start < 0`, `search_end ≤ search_start`, `len = 0` or the output
pointer is null; with valid arguments a failed `Alloc` yields the
try-again error (distinct from invalid-argument), and a successful `Alloc`
yields success with the allocated address (cast to `int64_t`) written
through the output pointer. -/
theorem claim_C9 :
    (∀ phys (ss se : Int) len al mt, (ss < 0 ∨ se ≤ ss ∨ len = 0) →
      KernelAllocateDirectMemory phys ss se len al mt false =
        (Status.EINVAL, phys, none)) ∧
    (∀ phys (ss se : Int) len al mt,
      KernelAllocateDirectMemory phys ss se len al mt true =
        (Status.EINVAL, phys, none)) ∧
    (∀ phys (ss se : Int) len al mt, ¬ (ss < 0 ∨ se ≤ ss ∨ len = 0) →
      PhysicalMemory.Alloc phys ss.toNat se.toNat len al = none →
      KernelAllocateDirectMemory phys ss se len al mt false =
        (Status.EAGAIN, phys, none)) ∧
    (∀ phys (ss se : Int) len al mt a phys', ¬ (ss < 0 ∨ se ≤ ss ∨ len = 0) →
      PhysicalMemory.Alloc phys ss.toNat se.toNat len al = some (a, phys') →
      KernelAllocateDirectMemory phys ss se len al mt false =
        (Status.OK, phys', some (int64_of_uint64 a))) ∧
    Status.EAGAIN ≠ Status.EINVAL ∧ Status.EAGAIN ≠ Status.OK ∧
    Status.EINVAL ≠ Status.OK := by
  have hneg : ∀ (ss se : Int) (len : Nat), ¬ (ss < 0 ∨ se ≤ ss ∨ len = 0) →
      ¬ (ss < 0 ∨ se ≤ ss ∨ len = 0 ∨ (false : Bool) = true) := by
    intro ss se len h hc
    rcases hc with hc | hc | hc | hc
    · exact h (Or.inl hc)
    · exact h (Or.inr (Or.inl hc))
    · exact h (Or.inr (Or.inr hc))
    · cases hc
  refine ⟨?_, ?_, ?_, ?_, by decide, by decide, by decide⟩
  · intro phys ss se len al mt h
    have hpos : ss < 0 ∨ se ≤ ss ∨ len = 0 ∨ (false : Bool) = true := by
      rcases h with h | h | h
      · exact Or.inl h
      · exact Or.inr (Or.inl h)
      · exact Or.inr (Or.inr (Or.inl h))
    simp only [KernelAllocateDirectMemory, if_pos hpos]
  · intro phys ss se len al mt
    simp [KernelAllocateDirectMemory]
  · intro phys ss se len al mt h halloc
    simp only [KernelAllocateDirectMemory, if_neg (hneg ss se len h), halloc]
  · intro phys ss se len al mt a phys' h halloc
    simp only [KernelAllocateDirectMemory, if_neg (hneg ss se len h), halloc]

/-- C9 witness: a successful allocation writes the address through the
output pointer, and failed window search on valid arguments reports
try-again. -/
theorem claim_C9_witness :
    KernelAllocateDirectMemory [] 0 100 10 0 0 false =
      (Status.OK, [PhysicalMemory.freshBlock 0 10], some (int64_of_uint64 0)) :=
  claim_C9.2.2.2.1 [] 0 100 10 0 0 0 [PhysicalMemory.freshBlock 0 10]
    (by decide) (by decide)

/-! ### Claim C10 -/

/-- C10 (counterexample): the claim says that after
`KernelMapNamedFlexibleMemory` returns out-of-memory because the host
reservation yielded address 0, a subsequent `KernelQueryMemoryProtection`
on **any** address below the requested length succeeds.  Address 0 itself
is below the length, but `KernelQueryMemoryProtection` hits its
`EXIT_NOT_IMPLEMENTED(addr == nullptr)` fatal check there instead of
succeeding. -/
theorem claim_C10_counterexample :
    KernelMapNamedFlexibleMemory [] 16 3 0 0 =
      some (Status.ENOMEM, [⟨0, 16, 3, Mode.ReadWrite, GpuMemoryMode.NoAccess⟩], 0) ∧
    KernelQueryMemoryProtection []
      [⟨0, 16, 3, Mode.ReadWrite, GpuMemoryMode.NoAccess⟩] 0 = none :=
  ⟨by decide, by decide⟩

/-- C10 (amended): `FlexibleMemory::Map` unconditionally appends and
returns true, so the registration-failure branch of
`KernelMapNamedFlexibleMemory` is unreachable; when the host reservation
returns address 0 the function still registers a flexible mapping with
`map_vaddr = 0` and the requested length before returning the
out-of-memory error — the error return leaves the manager state mutated;
a subsequent `FlexibleMemory::Find` succeeds on every address below the
requested length, and `KernelQueryMemoryProtection` succeeds on every
**nonzero** address below the length (address 0 trips its null-pointer
fatal check). -/
theorem claim_C10 :
    (∀ flex vaddr len prot mode gpu,
      (FlexibleMemory.Map flex vaddr len prot mode gpu).1 = true ∧
      (FlexibleMemory.Map flex vaddr len prot mode gpu).2 =
        flex ++ [⟨vaddr, len, prot, mode, gpu⟩]) ∧
    (∀ flex len prot mode gpu, decodeProtFlexible prot = some (mode, gpu) →
      KernelMapNamedFlexibleMemory flex len prot 0 0 =
        some (Status.ENOMEM, flex ++ [⟨0, len, prot, mode, gpu⟩], 0)) ∧
    (∀ flex len (prot : Int) mode gpu q, len < U64 → q < len →
      (FlexibleMemory.Find (flex ++ [⟨0, len, prot, mode, gpu⟩]) q).isSome) ∧
    (∀ phys flex len (prot : Int) mode gpu q, len < U64 → 0 < q → q < len →
      ∃ r, KernelQueryMemoryProtection phys (flex ++ [⟨0, len, prot, mode, gpu⟩]) q =
        some (Status.OK, some r)) := by
  have hfind : ∀ (flex : List FlexibleMemory.AllocatedBlock) len (prot : Int)
      mode gpu q, len < U64 → q < len →
      (FlexibleMemory.Find (flex ++ [⟨0, len, prot, mode, gpu⟩]) q).isSome := by
    intro flex len prot mode gpu q hlen hq
    rw [FlexibleMemory.flexFind_isSome_iff]
    refine ⟨⟨0, len, prot, mode, gpu⟩,
      List.mem_append_right _ (List.mem_singleton_self _), Nat.zero_le q, ?_⟩
    simpa [Nat.mod_eq_of_lt hlen] using hq
  refine ⟨?_, ?_, hfind, ?_⟩
  · intro flex vaddr len prot mode gpu
    exact ⟨rfl, rfl⟩
  · intro flex len prot mode gpu hdec
    simp [KernelMapNamedFlexibleMemory, hdec, FlexibleMemory.Map]
  · intro phys flex len prot mode gpu q hlen hq0 hq
    have hne : q ≠ 0 := Nat.pos_iff_ne_zero.mp hq0
    unfold KernelQueryMemoryProtection
    rw [if_neg hne]
    cases hp : PhysicalMemory.Find phys q with
    | some r => exact ⟨_, rfl⟩
    | none =>
      obtain ⟨r, hr⟩ := Option.isSome_iff_exists.mp
        (hfind flex len prot mode gpu q hlen hq)
      rw [hr]
      exact ⟨_, rfl⟩

/-- C10 witness: a concrete failing reservation registers the zero-address
mapping and returns out-of-memory. -/
theorem claim_C10_witness :
    KernelMapNamedFlexibleMemory [] 32 1 0 0 =
      some (Status.ENOMEM, [⟨0, 32, 1, Mode.Read, GpuMemoryMode.NoAccess⟩], 0) :=
  claim_C10.2.1 [] 32 1 Mode.Read GpuMemoryMode.NoAccess (by decide)

end Kyty
